import Mathlib

/-!
Verification of the scorecard-action sign-and-publish workflow.

Shallow embedding of `main.go` and `signing/signing.go` from the
scorecard-action repository.  The process environment is modelled as a
map from variable names to optional values; the external collaborators
(the scan sub-command, the cosign signer, `os.Setenv`'s possible OS-level
failure, the HTTP transport) are passed in as explicit parameters so that
theorems quantify over their behaviour.  The JSON request body produced
by `ProcessSignature` is modelled down to the byte level, following Go's
`encoding/json` string encoder, together with an independent JSON-object
deserializer used to state round-trip properties.
-/

namespace ScorecardAction

/-- The process environment: a map from variable name to value; `none`
means the variable is unset.  Go's `os.Getenv` returns `""` for an unset
variable, which `getenv` reflects. -/
def Env : Type := String → Option String

/-- Model of `os.Getenv`: the value of `key`, or `""` when unset. -/
def getenv (env : Env) (key : String) : String :=
  (env key).getD ""

/-- The state effect of a successful `os.Setenv`: afterwards `key` is set
(present) with value `value`. -/
def setenv (env : Env) (key value : String) : Env :=
  fun k => if k = key then some value else env k

/-- Modelled from the spec: the `options` package of this repository is not
among the given sources; the spec names its environment variables only
semantically ("results output file path").  The exact string is immaterial
to every claim; only distinctness of the keys is used. -/
def EnvInputResultsFile : String := "INPUT_RESULTS_FILE"

/-- Modelled from the spec: results output format variable (see
`EnvInputResultsFile`). -/
def EnvInputResultsFormat : String := "INPUT_RESULTS_FORMAT"

/-- Modelled from the spec: publish-enabled flag variable. -/
def EnvInputPublishResults : String := "INPUT_PUBLISH_RESULTS"

/-- Modelled from the spec: repository full-name variable. -/
def EnvGithubRepository : String := "GITHUB_REPOSITORY"

/-- Modelled from the spec: repository ref variable. -/
def EnvGithubRef : String := "GITHUB_REF"

/-- Modelled from the spec: repository access-token variable. -/
def EnvInputRepoToken : String := "INPUT_REPO_TOKEN"

/-- Modelled from the spec: internal publish base-URL variable. -/
def EnvInputInternalPublishBaseURL : String := "SCORECARD_INTERNAL_PUBLISH_BASE_URL"

/-- Result of one `GetJSONScorecardResults` invocation: the returned
value-or-error, the process environment after the function (its deferred
restores included), and the trace of environment variables the function
itself read (`os.Getenv` calls in `signing.go`, not those of the scan
sub-command, which is an external collaborator). -/
structure ScanOutcome where
  result : Except String String
  env : Env
  reads : List String

/-- Embedding of `signing.GetJSONScorecardResults` (signing.go:67-87).

The Go function registers two deferred `os.Setenv` calls whose value
arguments are evaluated at `defer` time, so the pre-existing values of the
results-file and results-format variables are captured before the forced
overwrites; the deferred restores run on every exit path.  Errors of the
`os.Setenv` calls themselves are discarded by the source, so `setenv` here
is the successful-set state effect.

`exec` is the scan sub-command `run.New().Execute()`: an external
collaborator that receives the current environment and returns its
error-or-success together with the environment it leaves behind.
`readFile` is `os.ReadFile`, from file path to content-or-error. -/
def getJSONScorecardResults (env : Env)
    (exec : Env → Except String Unit × Env)
    (readFile : String → Except String String) : ScanOutcome :=
  let savedFile := getenv env EnvInputResultsFile
  let savedFormat := getenv env EnvInputResultsFormat
  let env1 := setenv env EnvInputResultsFile "results.json"
  let env2 := setenv env1 EnvInputResultsFormat "json"
  let execOut := exec env2
  match execOut.1 with
  | Except.error err =>
    { result := Except.error ("error during command execution: " ++ err)
      env := setenv (setenv execOut.2 EnvInputResultsFormat savedFormat)
        EnvInputResultsFile savedFile
      reads := [EnvInputResultsFile, EnvInputResultsFormat] }
  | Except.ok _ =>
    match readFile (getenv execOut.2 EnvInputResultsFile) with
    | Except.error err =>
      { result := Except.error ("reading scorecard json results from file: " ++ err)
        env := setenv (setenv execOut.2 EnvInputResultsFormat savedFormat)
          EnvInputResultsFile savedFile
        reads := [EnvInputResultsFile, EnvInputResultsFormat, EnvInputResultsFile] }
    | Except.ok jsonPayload =>
      { result := Except.ok jsonPayload
        env := setenv (setenv execOut.2 EnvInputResultsFormat savedFormat)
          EnvInputResultsFile savedFile
        reads := [EnvInputResultsFile, EnvInputResultsFormat, EnvInputResultsFile] }

/-- Embedding of `signing.SignScorecardResult` (signing.go:39-64).

`setCosignExperimental` is the outcome of the
`os.Setenv("COSIGN_EXPERIMENTAL", "true")` OS call, whose error the source
checks and wraps; `signBlobCmd` is the external cosign `sign.SignBlobCmd`
call on the results file (its signature/certificate output is discarded by
the source, so only error-or-success is modelled). -/
def signScorecardResult (scorecardResultsFile : String)
    (setCosignExperimental : Except String Unit)
    (signBlobCmd : String → Except String Unit) : Except String Unit :=
  match setCosignExperimental with
  | Except.error e =>
    Except.error ("error setting COSIGN_EXPERIMENTAL env var: " ++ e)
  | Except.ok _ =>
    match signBlobCmd scorecardResultsFile with
    | Except.error e => Except.error ("error signing payload: " ++ e)
    | Except.ok _ => Except.ok ()

/-- Lowercase hexadecimal digit, as in Go's `encoding/json` (`"0123456789abcdef"`). -/
def hexDigit (n : Nat) : Char :=
  if n < 10 then Char.ofNat (48 + n) else Char.ofNat (87 + n)

/-- Go `encoding/json` string-encoding of one character (the default
encoder with HTML escaping, as used by `json.Marshal`): `"` and `\`
are backslash-escaped; `\n`, `\r`, `\t` use their short escapes; the
remaining control characters below U+0020 and the HTML-sensitive `<`,
`>`, `&` become `\u00XX`; U+2028 and U+2029 become their `\uXXXX` escapes;
every other character is emitted verbatim. -/
def encodeChar (c : Char) : List Char :=
  if c = Char.ofNat 34 then [Char.ofNat 92, Char.ofNat 34]
  else if c = Char.ofNat 92 then [Char.ofNat 92, Char.ofNat 92]
  else if c = Char.ofNat 10 then [Char.ofNat 92, 'n']
  else if c = Char.ofNat 13 then [Char.ofNat 92, 'r']
  else if c = Char.ofNat 9 then [Char.ofNat 92, 't']
  else if c.toNat < 32 ∨ c = '<' ∨ c = '>' ∨ c = '&' then
    [Char.ofNat 92, 'u', '0', '0', hexDigit (c.toNat / 16), hexDigit (c.toNat % 16)]
  else if c.toNat = 0x2028 ∨ c.toNat = 0x2029 then
    [Char.ofNat 92, 'u', '2', '0', '2', hexDigit (c.toNat % 16)]
  else [c]

/-- Go string encoding of a character sequence (without the surrounding
quotes). -/
def encodeStringBody : List Char → List Char
  | [] => []
  | c :: cs => encodeChar c ++ encodeStringBody cs

/-- Go string encoding of a string, surrounding quotes included. -/
def encodeString (s : List Char) : List Char :=
  Char.ofNat 34 :: (encodeStringBody s ++ [Char.ofNat 34])

/-- The anonymous struct marshalled by `ProcessSignature`
(signing.go:94-103): `result`, `branch`, `accessToken`, all strings. -/
structure ResultsPayload where
  result : String
  branch : String
  accessToken : String

/-- Model of `json.Marshal` on `ResultsPayload`: a JSON object whose members appear
in struct-field order under the names given by the `json` tags, with no
whitespace, each string Go-encoded. -/
def marshalResultsPayload (p : ResultsPayload) : String :=
  String.mk ([Char.ofNat 123]
    ++ encodeString "result".toList ++ [':'] ++ encodeString p.result.toList
    ++ [','] ++ encodeString "branch".toList ++ [':'] ++ encodeString p.branch.toList
    ++ [','] ++ encodeString "accessToken".toList ++ [':'] ++ encodeString p.accessToken.toList
    ++ [Char.ofNat 125])

/-- Value of a hexadecimal digit character, or `none`. -/
def hexVal (c : Char) : Option Nat :=
  if 48 ≤ c.toNat ∧ c.toNat ≤ 57 then some (c.toNat - 48)
  else if 97 ≤ c.toNat ∧ c.toNat ≤ 102 then some (c.toNat - 87)
  else if 65 ≤ c.toNat ∧ c.toNat ≤ 70 then some (c.toNat - 55)
  else none

/-- Prepend a decoded character to the pending result of a string-body
parse. -/
def pushChar (c : Char) : Option (List Char × List Char) → Option (List Char × List Char)
  | some (s, rest) => some (c :: s, rest)
  | none => none

/-- Combine four hexadecimal digit characters into a code unit. -/
def hex4 (a b c d : Char) : Option Nat :=
  match hexVal a, hexVal b, hexVal c, hexVal d with
  | some x, some y, some z, some w => some (((x * 16 + y) * 16 + z) * 16 + w)
  | _, _, _, _ => none

/-- Decode one `\uXXXX` escape (the leading `\u` already consumed):
returns the decoded character and the remaining input.  A high surrogate
followed by a `\uXXXX` low surrogate combines into the supplementary
character; a lone surrogate decodes to U+FFFD, as Go's decoder does. -/
def parseU : List Char → Option (Char × List Char)
  | a :: b :: c2 :: d :: rest3 =>
    match hex4 a b c2 d with
    | none => none
    | some n =>
      if n < 0xD800 ∨ 0xDFFF < n then some (Char.ofNat n, rest3)
      else if n < 0xDC00 then
        match rest3 with
        | e2 :: u2 :: a2 :: b2 :: c3 :: d2 :: rest4 =>
          if e2 = Char.ofNat 92 ∧ u2 = 'u' then
            match hex4 a2 b2 c3 d2 with
            | none => none
            | some m =>
              if 0xDC00 ≤ m ∧ m ≤ 0xDFFF then
                some (Char.ofNat (0x10000 + (n - 0xD800) * 0x400 + (m - 0xDC00)), rest4)
              else some (Char.ofNat 0xFFFD, e2 :: u2 :: a2 :: b2 :: c3 :: d2 :: rest4)
          else some (Char.ofNat 0xFFFD, e2 :: u2 :: a2 :: b2 :: c3 :: d2 :: rest4)
        | other => some (Char.ofNat 0xFFFD, other)
      else some (Char.ofNat 0xFFFD, rest3)
  | _ => none

/-- A successful `\uXXXX` decode consumes at least the four digit
characters. -/
theorem parseU_length (l : List Char) (ch : Char) (r : List Char)
    (h : parseU l = some (ch, r)) : r.length + 4 ≤ l.length := by
  match l with
  | [] => exact Option.noConfusion h
  | [a] => exact Option.noConfusion h
  | [a, b] => exact Option.noConfusion h
  | [a, b, c2] => exact Option.noConfusion h
  | a :: b :: c2 :: d :: rest3 =>
    unfold parseU at h
    dsimp only at h
    rcases hx : hex4 a b c2 d with _ | n <;> rw [hx] at h
    · exact Option.noConfusion h
    dsimp only at h
    by_cases h1 : n < 0xD800 ∨ 0xDFFF < n
    · rw [if_pos h1] at h
      injection h with h5
      injection h5 with ha hb
      subst hb
      simp only [List.length_cons]
      omega
    rw [if_neg h1] at h
    by_cases h2 : n < 0xDC00
    swap
    · rw [if_neg h2] at h
      injection h with h5
      injection h5 with ha hb
      subst hb
      simp only [List.length_cons]
      omega
    rw [if_pos h2] at h
    rcases rest3 with _ | ⟨e2, _ | ⟨u2, _ | ⟨a2, _ | ⟨b2, _ | ⟨c3, _ | ⟨d2, rest4⟩⟩⟩⟩⟩⟩
    · dsimp only at h
      injection h with h5
      injection h5 with ha hb
      subst hb
      simp only [List.length_cons]
      omega
    · dsimp only at h
      injection h with h5
      injection h5 with ha hb
      subst hb
      simp only [List.length_cons]
      omega
    · dsimp only at h
      injection h with h5
      injection h5 with ha hb
      subst hb
      simp only [List.length_cons]
      omega
    · dsimp only at h
      injection h with h5
      injection h5 with ha hb
      subst hb
      simp only [List.length_cons]
      omega
    · dsimp only at h
      injection h with h5
      injection h5 with ha hb
      subst hb
      simp only [List.length_cons]
      omega
    · dsimp only at h
      injection h with h5
      injection h5 with ha hb
      subst hb
      simp only [List.length_cons]
      omega
    · dsimp only at h
      by_cases h3 : e2 = Char.ofNat 92 ∧ u2 = 'u'
      · rw [if_pos h3] at h
        rcases hx2 : hex4 a2 b2 c3 d2 with _ | m <;> rw [hx2] at h
        · exact Option.noConfusion h
        dsimp only at h
        by_cases h4 : 0xDC00 ≤ m ∧ m ≤ 0xDFFF
        · rw [if_pos h4] at h
          injection h with h5
          injection h5 with ha hb
          subst hb
          simp only [List.length_cons]
          omega
        · rw [if_neg h4] at h
          injection h with h5
          injection h5 with ha hb
          subst hb
          simp only [List.length_cons]
          omega
      · rw [if_neg h3] at h
        injection h with h5
        injection h5 with ha hb
        subst hb
        simp only [List.length_cons]
        omega

/-- JSON string-body deserializer: the input starts right after the opening
quote; returns the decoded characters and the input remaining after the
closing quote.  Handles the standard escapes and `\uXXXX` (via `parseU`),
and rejects unescaped control characters. -/
def parseStringBody : List Char → Option (List Char × List Char)
  | [] => none
  | c :: rest =>
    if c = Char.ofNat 34 then some ([], rest)
    else if c = Char.ofNat 92 then
      match rest with
      | [] => none
      | e :: rest2 =>
        if e = Char.ofNat 34 then pushChar (Char.ofNat 34) (parseStringBody rest2)
        else if e = Char.ofNat 92 then pushChar (Char.ofNat 92) (parseStringBody rest2)
        else if e = '/' then pushChar '/' (parseStringBody rest2)
        else if e = 'b' then pushChar (Char.ofNat 8) (parseStringBody rest2)
        else if e = 'f' then pushChar (Char.ofNat 12) (parseStringBody rest2)
        else if e = 'n' then pushChar (Char.ofNat 10) (parseStringBody rest2)
        else if e = 'r' then pushChar (Char.ofNat 13) (parseStringBody rest2)
        else if e = 't' then pushChar (Char.ofNat 9) (parseStringBody rest2)
        else if e = 'u' then
          match hu : parseU rest2 with
          | none => none
          | some (ch, rest3) => pushChar ch (parseStringBody rest3)
        else none
    else if c.toNat < 32 then none
    else pushChar c (parseStringBody rest)
termination_by input => input.length
decreasing_by
  all_goals simp_wf
  all_goals try omega
  all_goals (have hlen := parseU_length _ _ _ (by assumption); omega)

/-- Skip JSON whitespace. -/
def skipWs : List Char → List Char
  | c :: rest =>
    if c = ' ' ∨ c = Char.ofNat 9 ∨ c = Char.ofNat 10 ∨ c = Char.ofNat 13 then
      skipWs rest
    else c :: rest
  | [] => []

/-- Deserialize the members of a JSON object whose values are strings: the
input starts at the first character after the opening brace (object known
to be non-empty); consumes through the closing brace and returns the
key/value list and the remaining input.  `fuel` bounds the number of
members. -/
def parseMembers (fuel : Nat) (input : List Char) :
    Option (List (List Char × List Char) × List Char) :=
  match fuel with
  | 0 => none
  | fuel + 1 =>
    match skipWs input with
    | [] => none
    | c :: r =>
      if c = Char.ofNat 34 then
        match parseStringBody r with
        | none => none
        | some (key, r1) =>
          match skipWs r1 with
          | [] => none
          | t1 :: r2 =>
            if t1 = ':' then
              match skipWs r2 with
              | [] => none
              | q :: r3 =>
                if q = Char.ofNat 34 then
                  match parseStringBody r3 with
                  | none => none
                  | some (val, r4) =>
                    match skipWs r4 with
                    | [] => none
                    | t :: r5 =>
                      if t = ',' then
                        match parseMembers fuel r5 with
                        | some (ms, rem) => some ((key, val) :: ms, rem)
                        | none => none
                      else if t = Char.ofNat 125 then some ([(key, val)], r5)
                      else none
                else none
            else none
      else none

/-- Deserialize a complete JSON document that is an object with string
values: the full input must be consumed. -/
def parseStringObject (s : String) : Option (List (List Char × List Char)) :=
  match skipWs s.toList with
  | [] => none
  | c :: r =>
    if c = Char.ofNat 123 then
      match skipWs r with
      | [] => none
      | c2 :: r2 =>
        if c2 = Char.ofNat 125 then if skipWs r2 = [] then some [] else none
        else
          match parseMembers (r.length + 1) (c2 :: r2) with
          | some (ms, rem) => if skipWs rem = [] then some ms else none
          | none => none
    else none

/-- A parsed URL, as the fields of Go's `net/url.URL` relevant to the
absolute `scheme://host/path` URLs this workflow builds. -/
structure URL where
  scheme : String
  host : String
  path : String

/-- Reassembly of a parsed URL (`URL.String` in `net/url`) for the URLs modelled here. -/
def URL.toStr (u : URL) : String :=
  u.scheme ++ "://" ++ u.host ++ u.path

/-- Model of Go `net/url.Parse` restricted to the shape this workflow
produces: an absolute URL `scheme://host/path` without userinfo, query,
fragment or percent-escapes.  As in Go, ASCII control characters make the
URL invalid; a URL of the expected shape parses into its scheme, host and
path components, and reassembling the result gives back the input. -/
def netUrlParse (s : String) : Except String URL :=
  let cs := s.toList
  if cs.any (fun c => c.toNat < 32 ∨ c.toNat = 127) then
    Except.error ("net/url: invalid control character in URL: " ++ s)
  else
    match cs.span (fun c => c ≠ ':') with
    | (schemePart, rest) =>
      match rest with
      | ':' :: '/' :: '/' :: afterScheme =>
        if schemePart.isEmpty then
          Except.error ("parse " ++ s ++ ": missing protocol scheme")
        else
          match afterScheme.span (fun c => c ≠ '/') with
          | (hostPart, pathPart) =>
            Except.ok
              { scheme := String.mk schemePart
                host := String.mk hostPart
                path := String.mk pathPart }
      | _ => Except.error ("parse " ++ s ++ ": not an absolute URL")

/-- The HTTP request `ProcessSignature` hands to `http.Client.Do`: method,
final URL string, body bytes, the `Content-Type` header set after request
creation, and the context deadline (seconds) attached via
`context.WithTimeout` before the call. -/
structure HTTPRequest where
  method : String
  url : String
  body : String
  contentType : String
  timeoutSeconds : Nat

/-- An HTTP response as `ProcessSignature` consumes it: status code,
status line, and the outcome of `io.ReadAll` on the body stream. -/
structure HTTPResponse where
  statusCode : Nat
  status : String
  bodyRead : Except String String

/-- Result of one `ProcessSignature` invocation: the returned
error-or-success, the requests actually handed to the HTTP client (the
source performs at most one `client.Do`), and the environment variables
read. -/
structure PublishOutcome where
  result : Except String Unit
  sent : List HTTPRequest
  reads : List String

/-- Embedding of `signing.ProcessSignature` (signing.go:90-144).

The body struct is built from the inputs, marshalled (`marshal`; the
byte-accurate instantiation is `marshalOk`), then the endpoint is the
configured base URL with `/projects/github.com/` and the repository name
appended, parsed by `urlParse` (instantiated with `netUrlParse`);
`newRequestErr` is `http.NewRequest`'s possible failure; the request —
POST to the parsed URL's string form, JSON content type, 10-second
deadline — goes to `doRequest` (`http.Client.Do`) exactly once, with no
retry.  A non-201 status makes the body be read and reported in the
error; 201 is success. -/
def processSignature (jsonPayload repoName repoRef accessToken : String)
    (env : Env)
    (marshal : ResultsPayload → Except String String)
    (urlParse : String → Except String URL)
    (newRequestErr : String → String → Option String)
    (doRequest : HTTPRequest → Except String HTTPResponse) : PublishOutcome :=
  let resultsPayload : ResultsPayload :=
    { result := jsonPayload, branch := repoRef, accessToken := accessToken }
  match marshal resultsPayload with
  | Except.error e =>
    { result := Except.error ("marshalling json results: " ++ e)
      sent := [], reads := [] }
  | Except.ok payloadBytes =>
    let apiURL := getenv env EnvInputInternalPublishBaseURL
    let rawURL := apiURL ++ "/projects/github.com/" ++ repoName
    match urlParse rawURL with
    | Except.error e =>
      { result := Except.error ("parsing Scorecard API endpoint: " ++ e)
        sent := [], reads := [EnvInputInternalPublishBaseURL] }
    | Except.ok parsedURL =>
      match newRequestErr "POST" parsedURL.toStr with
      | some e =>
        { result := Except.error ("creating HTTP request: " ++ e)
          sent := [], reads := [EnvInputInternalPublishBaseURL] }
      | none =>
        let req : HTTPRequest :=
          { method := "POST", url := parsedURL.toStr, body := payloadBytes
            contentType := "application/json", timeoutSeconds := 10 }
        match doRequest req with
        | Except.error e =>
          { result := Except.error ("executing scorecard-api call: " ++ e)
            sent := [req], reads := [EnvInputInternalPublishBaseURL] }
        | Except.ok resp =>
          if resp.statusCode ≠ 201 then
            match resp.bodyRead with
            | Except.error e =>
              { result := Except.error ("reading response body: " ++ e)
                sent := [req], reads := [EnvInputInternalPublishBaseURL] }
            | Except.ok bodyBytes =>
              { result := Except.error ("http response " ++ toString resp.statusCode
                  ++ ", status: " ++ resp.status ++ ", error: " ++ bodyBytes)
                sent := [req], reads := [EnvInputInternalPublishBaseURL] }
          else
            { result := Except.ok ()
              sent := [req], reads := [EnvInputInternalPublishBaseURL] }

/-- The byte-accurate instantiation of `ProcessSignature`'s `marshal`
step: Go's `json.Marshal` never fails on a struct of plain strings. -/
def marshalOk (p : ResultsPayload) : Except String String :=
  Except.ok (marshalResultsPayload p)

/-- Model of the `http.Client.Do` call under `context.WithTimeout` for
claims about the deadline: `arrival` is how many seconds pass before the
remote response `resp` would arrive; past the request's deadline the call
fails with the context error instead of blocking. -/
def timeoutTransport (arrival : Nat) (resp : HTTPResponse)
    (req : HTTPRequest) : Except String HTTPResponse :=
  if req.timeoutSeconds < arrival then
    Except.error "context deadline exceeded"
  else Except.ok resp

/-- Outcome of one run of `main` (main.go:27-53): whether the process
died via `log.Fatalf` (and with which message), which phases were
attempted, and the environment variables read by the repository's own
code, in order. -/
structure DriverOutcome where
  fatal : Option String
  secondaryScanAttempted : Bool
  signAttempted : Bool
  publishAttempted : Bool
  envReads : List String

/-- Embedding of `main` (main.go:27-53).

`primaryExec` is the first `cli.New().Execute()` (primary scan); on its
error the process dies at once.  Otherwise the publish flag is read once;
when it equals `"true"` the driver runs `getJSONScorecardResults`, then
`signScorecardResult` on the fixed name `"results.json"`, then
`processSignature` on the payload and the repository name, ref and token
read from the environment — each phase's error is fatal and stops the
later phases.  For any other flag value nothing after the primary scan
runs. -/
def mainDriver (env : Env)
    (primaryExec : Except String Unit)
    (secondaryExec : Env → Except String Unit × Env)
    (readFile : String → Except String String)
    (setCosignExperimental : Except String Unit)
    (signBlobCmd : String → Except String Unit)
    (marshal : ResultsPayload → Except String String)
    (urlParse : String → Except String URL)
    (newRequestErr : String → String → Option String)
    (doRequest : HTTPRequest → Except String HTTPResponse) : DriverOutcome :=
  match primaryExec with
  | Except.error e =>
    { fatal := some ("error during command execution: " ++ e)
      secondaryScanAttempted := false, signAttempted := false
      publishAttempted := false, envReads := [] }
  | Except.ok _ =>
    if getenv env EnvInputPublishResults = "true" then
      let scan := getJSONScorecardResults env secondaryExec readFile
      match scan.result with
      | Except.error e =>
        { fatal := some ("error generating json scorecard results: " ++ e)
          secondaryScanAttempted := true, signAttempted := false
          publishAttempted := false
          envReads := EnvInputPublishResults :: scan.reads }
      | Except.ok jsonPayload =>
        match signScorecardResult "results.json" setCosignExperimental signBlobCmd with
        | Except.error e =>
          { fatal := some ("error signing scorecard json results: " ++ e)
            secondaryScanAttempted := true, signAttempted := true
            publishAttempted := false
            envReads := EnvInputPublishResults :: scan.reads }
        | Except.ok _ =>
          let repoName := getenv scan.env EnvGithubRepository
          let repoRef := getenv scan.env EnvGithubRef
          let accessToken := getenv scan.env EnvInputRepoToken
          let pub := processSignature jsonPayload repoName repoRef accessToken
            scan.env marshal urlParse newRequestErr doRequest
          match pub.result with
          | Except.error e =>
            { fatal := some ("error processing signature: " ++ e)
              secondaryScanAttempted := true, signAttempted := true
              publishAttempted := true
              envReads := EnvInputPublishResults :: scan.reads
                ++ [EnvGithubRepository, EnvGithubRef, EnvInputRepoToken]
                ++ pub.reads }
          | Except.ok _ =>
            { fatal := none
              secondaryScanAttempted := true, signAttempted := true
              publishAttempted := true
              envReads := EnvInputPublishResults :: scan.reads
                ++ [EnvGithubRepository, EnvGithubRef, EnvInputRepoToken]
                ++ pub.reads }
    else
      { fatal := none
        secondaryScanAttempted := false, signAttempted := false
        publishAttempted := false, envReads := [EnvInputPublishResults] }

theorem getenv_setenv_same (env : Env) (k v : String) :
    getenv (setenv env k v) k = v := by
  simp [getenv, setenv]

theorem getenv_setenv_other (env : Env) (k k2 v : String) (h : k2 ≠ k) :
    getenv (setenv env k v) k2 = getenv env k2 := by
  simp [getenv, setenv, h]

/-- The environment left behind by `getJSONScorecardResults` is, on every
branch, the sub-command's environment with the two results variables
restored to the values captured on entry. -/
theorem getJSONScorecardResults_env_eq (env : Env)
    (exec : Env → Except String Unit × Env)
    (readFile : String → Except String String) :
    (getJSONScorecardResults env exec readFile).env =
      setenv (setenv (exec (setenv (setenv env EnvInputResultsFile "results.json")
            EnvInputResultsFormat "json")).2
          EnvInputResultsFormat (getenv env EnvInputResultsFormat))
        EnvInputResultsFile (getenv env EnvInputResultsFile) := by
  unfold getJSONScorecardResults
  dsimp only
  split
  · rfl
  · split
    · rfl
    · rfl

/-- The environment reads performed by `getJSONScorecardResults` itself
are the two captures plus, when the sub-command succeeds, the read-back of
the results-file path. -/
theorem getJSONScorecardResults_reads_cases (env : Env)
    (exec : Env → Except String Unit × Env)
    (readFile : String → Except String String) :
    (getJSONScorecardResults env exec readFile).reads
        = [EnvInputResultsFile, EnvInputResultsFormat] ∨
      (getJSONScorecardResults env exec readFile).reads
        = [EnvInputResultsFile, EnvInputResultsFormat, EnvInputResultsFile] := by
  unfold getJSONScorecardResults
  dsimp only
  split
  · exact Or.inl rfl
  · split
    · exact Or.inr rfl
    · exact Or.inr rfl

/-- C1: for every pair of pre-existing values of the results-output-file
and results-output-format environment variables, after
`GetJSONScorecardResults` returns — whether successfully or with an error,
and whatever the scan sub-command did to the environment — the values
observed for those two variables equal their pre-invocation values
exactly. -/
theorem getJSONScorecardResults_restores_config (env : Env)
    (exec : Env → Except String Unit × Env)
    (readFile : String → Except String String) :
    getenv (getJSONScorecardResults env exec readFile).env EnvInputResultsFile
        = getenv env EnvInputResultsFile ∧
      getenv (getJSONScorecardResults env exec readFile).env EnvInputResultsFormat
        = getenv env EnvInputResultsFormat := by
  rw [getJSONScorecardResults_env_eq]
  constructor
  · exact getenv_setenv_same _ _ _
  · rw [getenv_setenv_other _ _ _ _ (by decide), getenv_setenv_same]

/-- C10: whichever of the results-output-file and results-output-format
variables is unset before the call — independently of the state of the
other — `GetJSONScorecardResults` leaves that variable set to the empty
string: the deferred `os.Setenv(k, os.Getenv(k))` restore preserves the
looked-up string value but converts an unset variable into a
set-but-empty one. -/
theorem getJSONScorecardResults_unset_becomes_empty (env : Env)
    (exec : Env → Except String Unit × Env)
    (readFile : String → Except String String) :
    (env EnvInputResultsFile = none →
        (getJSONScorecardResults env exec readFile).env EnvInputResultsFile
          = some "") ∧
      (env EnvInputResultsFormat = none →
        (getJSONScorecardResults env exec readFile).env EnvInputResultsFormat
          = some "") := by
  rw [getJSONScorecardResults_env_eq]
  constructor
  · intro hFile
    simp [setenv, getenv, hFile]
  · intro hFormat
    have hne : EnvInputResultsFormat ≠ EnvInputResultsFile := by decide
    simp [setenv, getenv, hFormat, hne]

/-- Witness for C10 at two concrete environments with exactly one of the
two variables unset: the file variable unset while the format is
`"sarif"`, and the format variable unset while the file is
`"out.txt"`. -/
theorem getJSONScorecardResults_unset_becomes_empty_witness :
    ((getJSONScorecardResults
          (fun k => if k = EnvInputResultsFile then none else some "sarif")
          (fun e => (Except.ok (), e))
          (fun _ => Except.ok "data")).env EnvInputResultsFile = some "" ∧
      (getJSONScorecardResults
          (fun k => if k = EnvInputResultsFormat then none else some "out.txt")
          (fun e => (Except.ok (), e))
          (fun _ => Except.ok "data")).env EnvInputResultsFormat = some "") :=
  ⟨(getJSONScorecardResults_unset_becomes_empty
      (fun k => if k = EnvInputResultsFile then none else some "sarif")
      (fun e => (Except.ok (), e)) (fun _ => Except.ok "data")).1 (by decide),
    (getJSONScorecardResults_unset_becomes_empty
      (fun k => if k = EnvInputResultsFormat then none else some "out.txt")
      (fun e => (Except.ok (), e)) (fun _ => Except.ok "data")).2 (by decide)⟩

/-- Whatever the collaborators do, `GetJSONScorecardResults` either
succeeds or returns an error wrapped as a sub-command execution error or
as a file-read error; no other error shape — in particular none caused by
its `os.Setenv` mutations, whose results the source discards — is
possible. -/
theorem getJSONScorecardResults_error_sources (env : Env)
    (exec : Env → Except String Unit × Env)
    (readFile : String → Except String String) :
    (∃ v, (getJSONScorecardResults env exec readFile).result = Except.ok v) ∨
      (∃ e, (getJSONScorecardResults env exec readFile).result
        = Except.error ("error during command execution: " ++ e)) ∨
      (∃ e, (getJSONScorecardResults env exec readFile).result
        = Except.error ("reading scorecard json results from file: " ++ e)) := by
  unfold getJSONScorecardResults
  dsimp only
  split
  · next err _ => exact Or.inr (Or.inl ⟨err, rfl⟩)
  · split
    · next err _ => exact Or.inr (Or.inr ⟨err, rfl⟩)
    · next p _ => exact Or.inl ⟨p, rfl⟩

/-- C7, counterexample: `SignScorecardResult` does return an error caused
by an environment-variable set operation — when the OS-level
`os.Setenv("COSIGN_EXPERIMENTAL", "true")` call fails, the wrapped set
error is returned before signing is even attempted
(signing.go:40-42). -/
theorem signScorecardResult_setenv_error :
    signScorecardResult "results.json" (Except.error "invalid argument")
        (fun _ => Except.ok ())
      = Except.error "error setting COSIGN_EXPERIMENTAL env var: invalid argument" :=
  rfl

/-- C7, amended: environment mutation in `GetJSONScorecardResults`
(setting the forced results path/format and restoring them) is never a
source of a returned error — its errors are exactly sub-command or
file-read errors; `SignScorecardResult`, by contrast, returns a wrapped
error exactly when setting the experimental-signing toggle fails, and
otherwise errs only through the signing call. -/
theorem envMutation_error_scope :
    (∀ (env : Env) (exec : Env → Except String Unit × Env)
        (readFile : String → Except String String),
      (∃ v, (getJSONScorecardResults env exec readFile).result = Except.ok v) ∨
        (∃ e, (getJSONScorecardResults env exec readFile).result
          = Except.error ("error during command execution: " ++ e)) ∨
        (∃ e, (getJSONScorecardResults env exec readFile).result
          = Except.error ("reading scorecard json results from file: " ++ e))) ∧
      (∀ (file e : String) (cmd : String → Except String Unit),
        signScorecardResult file (Except.error e) cmd
          = Except.error ("error setting COSIGN_EXPERIMENTAL env var: " ++ e)) ∧
      (∀ (file : String) (cmd : String → Except String Unit),
        signScorecardResult file (Except.ok ()) cmd = Except.ok () ∨
          ∃ e, cmd file = Except.error e ∧
            signScorecardResult file (Except.ok ()) cmd
              = Except.error ("error signing payload: " ++ e)) := by
  refine ⟨getJSONScorecardResults_error_sources, fun file e cmd => rfl, fun file cmd => ?_⟩
  unfold signScorecardResult
  dsimp only
  split
  · next e _ => exact Or.inr ⟨e, by assumption, rfl⟩
  · exact Or.inl rfl

/-- The environment reads performed by `ProcessSignature` itself: none
when marshalling fails, otherwise exactly the publish base-URL
variable. -/
theorem processSignature_reads_cases (jsonPayload repoName repoRef accessToken : String)
    (env : Env) (marshal : ResultsPayload → Except String String)
    (urlParse : String → Except String URL)
    (newRequestErr : String → String → Option String)
    (doRequest : HTTPRequest → Except String HTTPResponse) :
    (processSignature jsonPayload repoName repoRef accessToken env marshal urlParse
          newRequestErr doRequest).reads = [] ∨
      (processSignature jsonPayload repoName repoRef accessToken env marshal urlParse
          newRequestErr doRequest).reads = [EnvInputInternalPublishBaseURL] := by
  unfold processSignature
  dsimp only
  split
  · exact Or.inl rfl
  · split
    · exact Or.inr rfl
    · split
      · exact Or.inr rfl
      · split
        · exact Or.inr rfl
        · split
          · split
            · exact Or.inr rfl
            · exact Or.inr rfl
          · exact Or.inr rfl

/-- C3: in every execution of the driver that reaches the post-scan
branch, a failing secondary (forced-JSON) scan means signing and
publishing are never attempted and the process dies with a fatal message
identifying the scan phase; and a failing signing step means publishing is
never attempted and the fatal message identifies the signing phase. -/
theorem mainDriver_failure_ordering (env : Env)
    (secondaryExec : Env → Except String Unit × Env)
    (readFile : String → Except String String)
    (setCosignExperimental : Except String Unit)
    (signBlobCmd : String → Except String Unit)
    (marshal : ResultsPayload → Except String String)
    (urlParse : String → Except String URL)
    (newRequestErr : String → String → Option String)
    (doRequest : HTTPRequest → Except String HTTPResponse)
    (hflag : getenv env EnvInputPublishResults = "true") :
    (∀ e, (getJSONScorecardResults env secondaryExec readFile).result = Except.error e →
      (mainDriver env (Except.ok ()) secondaryExec readFile setCosignExperimental
            signBlobCmd marshal urlParse newRequestErr doRequest).signAttempted = false ∧
        (mainDriver env (Except.ok ()) secondaryExec readFile setCosignExperimental
            signBlobCmd marshal urlParse newRequestErr doRequest).publishAttempted = false ∧
        (mainDriver env (Except.ok ()) secondaryExec readFile setCosignExperimental
              signBlobCmd marshal urlParse newRequestErr doRequest).fatal
          = some ("error generating json scorecard results: " ++ e)) ∧
      (∀ v e, (getJSONScorecardResults env secondaryExec readFile).result = Except.ok v →
        signScorecardResult "results.json" setCosignExperimental signBlobCmd
            = Except.error e →
        (mainDriver env (Except.ok ()) secondaryExec readFile setCosignExperimental
              signBlobCmd marshal urlParse newRequestErr doRequest).publishAttempted
            = false ∧
          (mainDriver env (Except.ok ()) secondaryExec readFile setCosignExperimental
                signBlobCmd marshal urlParse newRequestErr doRequest).fatal
            = some ("error signing scorecard json results: " ++ e)) := by
  constructor
  · intro e hscan
    unfold mainDriver
    dsimp only
    rw [if_pos hflag, hscan]
    exact ⟨rfl, rfl, rfl⟩
  · intro v e hscan hsign
    unfold mainDriver
    dsimp only
    rw [if_pos hflag, hscan, hsign]
    exact ⟨rfl, rfl⟩

/-- Witness for C3 at concrete collaborators: the secondary scan fails,
so signing and publishing are not attempted and the fatal message names
the scan phase. -/
theorem mainDriver_failure_ordering_witness :
    (mainDriver (fun _ => some "true") (Except.ok ())
          (fun e => (Except.error "boom", e)) (fun _ => Except.ok "data")
          (Except.ok ()) (fun _ => Except.ok ()) marshalOk netUrlParse
          (fun _ _ => none) (fun _ => Except.error "net")).signAttempted = false ∧
      (mainDriver (fun _ => some "true") (Except.ok ())
          (fun e => (Except.error "boom", e)) (fun _ => Except.ok "data")
          (Except.ok ()) (fun _ => Except.ok ()) marshalOk netUrlParse
          (fun _ _ => none) (fun _ => Except.error "net")).publishAttempted = false ∧
      (mainDriver (fun _ => some "true") (Except.ok ())
          (fun e => (Except.error "boom", e)) (fun _ => Except.ok "data")
          (Except.ok ()) (fun _ => Except.ok ()) marshalOk netUrlParse
          (fun _ _ => none) (fun _ => Except.error "net")).fatal
        = some "error generating json scorecard results: error during command execution: boom" :=
  (mainDriver_failure_ordering (fun _ => some "true")
      (fun e => (Except.error "boom", e)) (fun _ => Except.ok "data")
      (Except.ok ()) (fun _ => Except.ok ()) marshalOk netUrlParse
      (fun _ _ => none) (fun _ => Except.error "net") rfl).1
    "error during command execution: boom" rfl

/-- The function `GetJSONScorecardResults` never reads the publish flag. -/
theorem getJSONScorecardResults_reads_no_flag (env : Env)
    (exec : Env → Except String Unit × Env)
    (readFile : String → Except String String) :
    (getJSONScorecardResults env exec readFile).reads.count EnvInputPublishResults
      = 0 := by
  rcases getJSONScorecardResults_reads_cases env exec readFile with h | h <;>
    rw [h] <;> decide

/-- The function `ProcessSignature` never reads the publish flag. -/
theorem processSignature_reads_no_flag (jsonPayload repoName repoRef accessToken : String)
    (env : Env) (marshal : ResultsPayload → Except String String)
    (urlParse : String → Except String URL)
    (newRequestErr : String → String → Option String)
    (doRequest : HTTPRequest → Except String HTTPResponse) :
    (processSignature jsonPayload repoName repoRef accessToken env marshal urlParse
        newRequestErr doRequest).reads.count EnvInputPublishResults = 0 := by
  rcases processSignature_reads_cases jsonPayload repoName repoRef accessToken env
      marshal urlParse newRequestErr doRequest with h | h <;>
    rw [h] <;> decide

/-- C6: once the primary scan has succeeded, the driver enters the
post-scan branch (secondary scan, signing, publishing) exactly when the
publish flag equals the string `"true"`; for any other value nothing
beyond the primary scan runs; and across the whole execution the
repository's code reads the flag exactly once. -/
theorem mainDriver_publish_flag (env : Env)
    (secondaryExec : Env → Except String Unit × Env)
    (readFile : String → Except String String)
    (setCosignExperimental : Except String Unit)
    (signBlobCmd : String → Except String Unit)
    (marshal : ResultsPayload → Except String String)
    (urlParse : String → Except String URL)
    (newRequestErr : String → String → Option String)
    (doRequest : HTTPRequest → Except String HTTPResponse) :
    ((mainDriver env (Except.ok ()) secondaryExec readFile setCosignExperimental
            signBlobCmd marshal urlParse newRequestErr doRequest).secondaryScanAttempted
          = true
        ↔ getenv env EnvInputPublishResults = "true") ∧
      (getenv env EnvInputPublishResults ≠ "true" →
        (mainDriver env (Except.ok ()) secondaryExec readFile setCosignExperimental
              signBlobCmd marshal urlParse newRequestErr doRequest).secondaryScanAttempted
            = false ∧
          (mainDriver env (Except.ok ()) secondaryExec readFile setCosignExperimental
              signBlobCmd marshal urlParse newRequestErr doRequest).signAttempted = false ∧
          (mainDriver env (Except.ok ()) secondaryExec readFile setCosignExperimental
              signBlobCmd marshal urlParse newRequestErr doRequest).publishAttempted = false ∧
          (mainDriver env (Except.ok ()) secondaryExec readFile setCosignExperimental
              signBlobCmd marshal urlParse newRequestErr doRequest).fatal = none) ∧
      (mainDriver env (Except.ok ()) secondaryExec readFile setCosignExperimental
          signBlobCmd marshal urlParse newRequestErr
          doRequest).envReads.count EnvInputPublishResults = 1 := by
  have hscanreads := getJSONScorecardResults_reads_no_flag env secondaryExec readFile
  by_cases hflag : getenv env EnvInputPublishResults = "true"
  · unfold mainDriver
    dsimp only
    rw [if_pos hflag]
    have hmid : List.count EnvInputPublishResults
        [EnvGithubRepository, EnvGithubRef, EnvInputRepoToken] = 0 := by decide
    cases hres : (getJSONScorecardResults env secondaryExec readFile).result with
    | error e =>
      refine ⟨by simp [hflag], fun h => (h hflag).elim, ?_⟩
      simp [List.count_cons, hscanreads]
    | ok v =>
      cases hsign : signScorecardResult "results.json" setCosignExperimental signBlobCmd with
      | error e =>
        refine ⟨by simp [hflag], fun h => (h hflag).elim, ?_⟩
        simp [List.count_cons, hscanreads]
      | ok u =>
        have hpubreads := processSignature_reads_no_flag v
          (getenv (getJSONScorecardResults env secondaryExec readFile).env EnvGithubRepository)
          (getenv (getJSONScorecardResults env secondaryExec readFile).env EnvGithubRef)
          (getenv (getJSONScorecardResults env secondaryExec readFile).env EnvInputRepoToken)
          (getJSONScorecardResults env secondaryExec readFile).env
          marshal urlParse newRequestErr doRequest
        dsimp only
        cases hpub : (processSignature v
            (getenv (getJSONScorecardResults env secondaryExec readFile).env EnvGithubRepository)
            (getenv (getJSONScorecardResults env secondaryExec readFile).env EnvGithubRef)
            (getenv (getJSONScorecardResults env secondaryExec readFile).env EnvInputRepoToken)
            (getJSONScorecardResults env secondaryExec readFile).env
            marshal urlParse newRequestErr doRequest).result with
        | error e =>
          refine ⟨by simp [hflag], fun h => (h hflag).elim, ?_⟩
          simp only [List.count_cons, List.count_append, hscanreads, hpubreads]
          decide
        | ok w =>
          refine ⟨by simp [hflag], fun h => (h hflag).elim, ?_⟩
          simp only [List.count_cons, List.count_append, hscanreads, hpubreads]
          decide
  · unfold mainDriver
    dsimp only
    rw [if_neg hflag]
    refine ⟨by simp [hflag], fun _ => ⟨rfl, rfl, rfl, rfl⟩, by simp [List.count_cons]⟩

/-- Witness for C6 at a concrete environment with the flag unset: only
the primary scan runs and the flag is read exactly once. -/
theorem mainDriver_publish_flag_witness :
    ((mainDriver (fun _ => none) (Except.ok ()) (fun e => (Except.ok (), e))
            (fun _ => Except.ok "data") (Except.ok ()) (fun _ => Except.ok ())
            marshalOk netUrlParse (fun _ _ => none)
            (fun _ => Except.error "net")).secondaryScanAttempted = true
        ↔ getenv (fun _ => none) EnvInputPublishResults = "true") ∧
      (getenv (fun _ => none) EnvInputPublishResults ≠ "true" →
        (mainDriver (fun _ => none) (Except.ok ()) (fun e => (Except.ok (), e))
            (fun _ => Except.ok "data") (Except.ok ()) (fun _ => Except.ok ())
            marshalOk netUrlParse (fun _ _ => none)
            (fun _ => Except.error "net")).secondaryScanAttempted = false ∧
          (mainDriver (fun _ => none) (Except.ok ()) (fun e => (Except.ok (), e))
              (fun _ => Except.ok "data") (Except.ok ()) (fun _ => Except.ok ())
              marshalOk netUrlParse (fun _ _ => none)
              (fun _ => Except.error "net")).signAttempted = false ∧
          (mainDriver (fun _ => none) (Except.ok ()) (fun e => (Except.ok (), e))
              (fun _ => Except.ok "data") (Except.ok ()) (fun _ => Except.ok ())
              marshalOk netUrlParse (fun _ _ => none)
              (fun _ => Except.error "net")).publishAttempted = false ∧
          (mainDriver (fun _ => none) (Except.ok ()) (fun e => (Except.ok (), e))
              (fun _ => Except.ok "data") (Except.ok ()) (fun _ => Except.ok ())
              marshalOk netUrlParse (fun _ _ => none)
              (fun _ => Except.error "net")).fatal = none) ∧
      (mainDriver (fun _ => none) (Except.ok ()) (fun e => (Except.ok (), e))
          (fun _ => Except.ok "data") (Except.ok ()) (fun _ => Except.ok ())
          marshalOk netUrlParse (fun _ _ => none)
          (fun _ => Except.error "net")).envReads.count EnvInputPublishResults = 1 :=
  mainDriver_publish_flag (fun _ => none) (fun e => (Except.ok (), e))
    (fun _ => Except.ok "data") (Except.ok ()) (fun _ => Except.ok ())
    marshalOk netUrlParse (fun _ _ => none) (fun _ => Except.error "net")

/-- Sample environment for concrete witnesses: only the publish base URL
is configured. -/
def sampleEnv : Env :=
  fun k => if k = EnvInputInternalPublishBaseURL
    then some "https://api.example.com" else none

/-- Sample non-201 response used in concrete witnesses. -/
def resp200 : HTTPResponse :=
  { statusCode := 200, status := "200 OK", bodyRead := Except.ok "unexpected" }

/-- Sample 201 response used in concrete witnesses. -/
def respCreated : HTTPResponse :=
  { statusCode := 201, status := "201 Created", bodyRead := Except.ok "" }

/-- The endpoint URL of the concrete witnesses, parsed. -/
def sampleURL : URL :=
  { scheme := "https", host := "api.example.com"
    path := "/projects/github.com/octo/repo" }

/-- C2: with the response delivered and its body readable,
`ProcessSignature` returns success exactly when the status code is 201
(Created); for every other status code — other 2xx codes included — it
returns an error whose message contains the response body text. -/
theorem processSignature_created_iff (jsonPayload repoName repoRef accessToken
      payloadBytes : String) (env : Env)
    (marshal : ResultsPayload → Except String String)
    (urlParse : String → Except String URL)
    (newRequestErr : String → String → Option String)
    (u : URL) (resp : HTTPResponse) (body : String)
    (hm : marshal { result := jsonPayload, branch := repoRef, accessToken := accessToken }
      = Except.ok payloadBytes)
    (hu : urlParse (getenv env EnvInputInternalPublishBaseURL
        ++ "/projects/github.com/" ++ repoName) = Except.ok u)
    (hn : newRequestErr "POST" u.toStr = none)
    (hb : resp.bodyRead = Except.ok body) :
    ((processSignature jsonPayload repoName repoRef accessToken env marshal urlParse
          newRequestErr (fun _ => Except.ok resp)).result = Except.ok ()
        ↔ resp.statusCode = 201) ∧
      (resp.statusCode ≠ 201 →
        ∃ pre, (processSignature jsonPayload repoName repoRef accessToken env marshal
            urlParse newRequestErr (fun _ => Except.ok resp)).result
          = Except.error (pre ++ body)) := by
  unfold processSignature
  dsimp only
  rw [hm]
  dsimp only
  rw [hu]
  dsimp only
  rw [hn]
  dsimp only
  by_cases hs : resp.statusCode = 201
  · rw [if_neg (by simp [hs])]
    exact ⟨by simp [hs], fun h => absurd hs h⟩
  · rw [if_pos hs, hb]
    refine ⟨⟨fun h => absurd h (by simp), fun h => absurd h hs⟩, fun _ => ?_⟩
    exact ⟨"http response " ++ toString resp.statusCode ++ ", status: "
      ++ resp.status ++ ", error: ", rfl⟩

/-- Witness for C2 at a concrete 200 response: the call fails and the
error message carries the response body. -/
theorem processSignature_created_iff_witness :
    ((processSignature "{}" "octo/repo" "refs/heads/main" "tok" sampleEnv
            marshalOk netUrlParse (fun _ _ => none)
            (fun _ => Except.ok resp200)).result = Except.ok ()
        ↔ resp200.statusCode = 201) ∧
      (resp200.statusCode ≠ 201 →
        ∃ pre, (processSignature "{}" "octo/repo" "refs/heads/main" "tok" sampleEnv
            marshalOk netUrlParse (fun _ _ => none)
            (fun _ => Except.ok resp200)).result
          = Except.error (pre ++ "unexpected")) :=
  processSignature_created_iff "{}" "octo/repo" "refs/heads/main" "tok" _
    sampleEnv marshalOk netUrlParse (fun _ _ => none) sampleURL resp200
    "unexpected" rfl (by rfl) rfl rfl

/-- C9: when `ProcessSignature` fails before transport — at JSON
marshalling, at endpoint-URL parsing, or at HTTP request construction —
it returns that step's wrapped error and hands no request at all to the
HTTP client. -/
theorem processSignature_no_request_on_early_error (jsonPayload repoName repoRef
      accessToken : String) (env : Env)
    (marshal : ResultsPayload → Except String String)
    (urlParse : String → Except String URL)
    (newRequestErr : String → String → Option String)
    (doRequest : HTTPRequest → Except String HTTPResponse) :
    (∀ e, marshal { result := jsonPayload, branch := repoRef, accessToken := accessToken }
        = Except.error e →
      (processSignature jsonPayload repoName repoRef accessToken env marshal urlParse
            newRequestErr doRequest).result
          = Except.error ("marshalling json results: " ++ e) ∧
        (processSignature jsonPayload repoName repoRef accessToken env marshal urlParse
          newRequestErr doRequest).sent = []) ∧
      (∀ pb e, marshal { result := jsonPayload, branch := repoRef, accessToken := accessToken }
          = Except.ok pb →
        urlParse (getenv env EnvInputInternalPublishBaseURL
            ++ "/projects/github.com/" ++ repoName) = Except.error e →
        (processSignature jsonPayload repoName repoRef accessToken env marshal urlParse
              newRequestErr doRequest).result
            = Except.error ("parsing Scorecard API endpoint: " ++ e) ∧
          (processSignature jsonPayload repoName repoRef accessToken env marshal urlParse
            newRequestErr doRequest).sent = []) ∧
      (∀ pb u e, marshal { result := jsonPayload, branch := repoRef, accessToken := accessToken }
          = Except.ok pb →
        urlParse (getenv env EnvInputInternalPublishBaseURL
            ++ "/projects/github.com/" ++ repoName) = Except.ok u →
        newRequestErr "POST" u.toStr = some e →
        (processSignature jsonPayload repoName repoRef accessToken env marshal urlParse
              newRequestErr doRequest).result
            = Except.error ("creating HTTP request: " ++ e) ∧
          (processSignature jsonPayload repoName repoRef accessToken env marshal urlParse
            newRequestErr doRequest).sent = []) := by
  refine ⟨fun e hm => ?_, fun pb e hm hu => ?_, fun pb u e hm hu hn => ?_⟩
  · unfold processSignature
    dsimp only
    rw [hm]
    exact ⟨rfl, rfl⟩
  · unfold processSignature
    dsimp only
    rw [hm]
    dsimp only
    rw [hu]
    exact ⟨rfl, rfl⟩
  · unfold processSignature
    dsimp only
    rw [hm]
    dsimp only
    rw [hu]
    dsimp only
    rw [hn]
    exact ⟨rfl, rfl⟩

/-- Witness for C9: a failing marshal step yields the wrapped error and
no request reaches the client. -/
theorem processSignature_no_request_on_early_error_witness :
    (processSignature "{}" "octo/repo" "r" "t" (fun _ => none)
          (fun _ => Except.error "bad") netUrlParse (fun _ _ => none)
          (fun _ => Except.error "net")).result
        = Except.error "marshalling json results: bad" ∧
      (processSignature "{}" "octo/repo" "r" "t" (fun _ => none)
        (fun _ => Except.error "bad") netUrlParse (fun _ _ => none)
        (fun _ => Except.error "net")).sent = [] :=
  (processSignature_no_request_on_early_error "{}" "octo/repo" "r" "t" (fun _ => none)
    (fun _ => Except.error "bad") netUrlParse (fun _ _ => none)
    (fun _ => Except.error "net")).1 "bad" rfl

/-- C8: every request `ProcessSignature` hands to the HTTP client carries
the 10-second context deadline, the client is invoked at most once (no
retry), and with a transport whose response would only arrive after the
deadline the single call fails with the context's timeout error instead
of blocking. -/
theorem processSignature_deadline (jsonPayload repoName repoRef accessToken : String)
    (env : Env) :
    (∀ (marshal : ResultsPayload → Except String String)
        (urlParse : String → Except String URL)
        (newRequestErr : String → String → Option String)
        (doRequest : HTTPRequest → Except String HTTPResponse),
      (∀ req, req ∈ (processSignature jsonPayload repoName repoRef accessToken env
          marshal urlParse newRequestErr doRequest).sent → req.timeoutSeconds = 10) ∧
        (processSignature jsonPayload repoName repoRef accessToken env marshal urlParse
          newRequestErr doRequest).sent.length ≤ 1) ∧
      (∀ (marshal : ResultsPayload → Except String String)
          (urlParse : String → Except String URL)
          (newRequestErr : String → String → Option String)
          (payloadBytes : String) (u : URL) (arrival : Nat) (resp : HTTPResponse),
        marshal { result := jsonPayload, branch := repoRef, accessToken := accessToken }
            = Except.ok payloadBytes →
        urlParse (getenv env EnvInputInternalPublishBaseURL
            ++ "/projects/github.com/" ++ repoName) = Except.ok u →
        newRequestErr "POST" u.toStr = none →
        10 < arrival →
        (processSignature jsonPayload repoName repoRef accessToken env marshal urlParse
              newRequestErr (timeoutTransport arrival resp)).result
            = Except.error "executing scorecard-api call: context deadline exceeded" ∧
          (processSignature jsonPayload repoName repoRef accessToken env marshal urlParse
            newRequestErr (timeoutTransport arrival resp)).sent.length = 1) := by
  constructor
  · intro marshal urlParse newRequestErr doRequest
    unfold processSignature
    dsimp only
    split
    · exact ⟨fun req h => absurd h (List.not_mem_nil req), by simp⟩
    · split
      · exact ⟨fun req h => absurd h (List.not_mem_nil req), by simp⟩
      · split
        · exact ⟨fun req h => absurd h (List.not_mem_nil req), by simp⟩
        · split
          · refine ⟨fun req h => ?_, by simp⟩
            rw [List.mem_singleton.mp h]
          · split
            · split
              · refine ⟨fun req h => ?_, by simp⟩
                rw [List.mem_singleton.mp h]
              · refine ⟨fun req h => ?_, by simp⟩
                rw [List.mem_singleton.mp h]
            · refine ⟨fun req h => ?_, by simp⟩
              rw [List.mem_singleton.mp h]
  · intro marshal urlParse newRequestErr payloadBytes u arrival resp hm hu hn harr
    unfold processSignature
    dsimp only
    rw [hm]
    dsimp only
    rw [hu]
    dsimp only
    rw [hn]
    dsimp only
    unfold timeoutTransport
    rw [if_pos (by exact harr)]
    exact ⟨rfl, rfl⟩

/-- Witness for C8: with a 12-second arrival against the 10-second
deadline, the concrete call fails with the timeout error after a single
transport invocation. -/
theorem processSignature_deadline_witness :
    (processSignature "{}" "octo/repo" "refs/heads/main" "tok" sampleEnv
          marshalOk netUrlParse (fun _ _ => none)
          (timeoutTransport 12 respCreated)).result
        = Except.error "executing scorecard-api call: context deadline exceeded" ∧
      (processSignature "{}" "octo/repo" "refs/heads/main" "tok" sampleEnv
          marshalOk netUrlParse (fun _ _ => none)
          (timeoutTransport 12 respCreated)).sent.length = 1 :=
  (processSignature_deadline "{}" "octo/repo" "refs/heads/main" "tok" sampleEnv).2
    marshalOk netUrlParse (fun _ _ => none) _ sampleURL 12 respCreated
    rfl (by rfl) rfl (by decide)

theorem parseStringBody_quote (l : List Char) :
    parseStringBody (Char.ofNat 34 :: l) = some ([], l) := by
  rw [parseStringBody.eq_def]
  dsimp only
  rw [if_pos rfl]

theorem parseStringBody_esc_quote (l : List Char) :
    parseStringBody (Char.ofNat 92 :: Char.ofNat 34 :: l)
      = pushChar (Char.ofNat 34) (parseStringBody l) := by
  rw [parseStringBody.eq_def]
  dsimp only
  rw [if_neg (by decide), if_pos rfl, if_pos rfl]

theorem parseStringBody_esc_backslash (l : List Char) :
    parseStringBody (Char.ofNat 92 :: Char.ofNat 92 :: l)
      = pushChar (Char.ofNat 92) (parseStringBody l) := by
  rw [parseStringBody.eq_def]
  dsimp only
  rw [if_neg (by decide), if_pos rfl, if_neg (by decide), if_pos rfl]

theorem parseStringBody_esc_n (l : List Char) :
    parseStringBody (Char.ofNat 92 :: 'n' :: l)
      = pushChar (Char.ofNat 10) (parseStringBody l) := by
  rw [parseStringBody.eq_def]
  dsimp only
  rw [if_neg (by decide), if_pos rfl]
  rw [if_neg (by decide), if_neg (by decide), if_neg (by decide), if_neg (by decide),
    if_neg (by decide), if_pos rfl]

theorem parseStringBody_esc_r (l : List Char) :
    parseStringBody (Char.ofNat 92 :: 'r' :: l)
      = pushChar (Char.ofNat 13) (parseStringBody l) := by
  rw [parseStringBody.eq_def]
  dsimp only
  rw [if_neg (by decide), if_pos rfl]
  rw [if_neg (by decide), if_neg (by decide), if_neg (by decide), if_neg (by decide),
    if_neg (by decide), if_neg (by decide), if_pos rfl]

theorem parseStringBody_esc_t (l : List Char) :
    parseStringBody (Char.ofNat 92 :: 't' :: l)
      = pushChar (Char.ofNat 9) (parseStringBody l) := by
  rw [parseStringBody.eq_def]
  dsimp only
  rw [if_neg (by decide), if_pos rfl]
  rw [if_neg (by decide), if_neg (by decide), if_neg (by decide), if_neg (by decide),
    if_neg (by decide), if_neg (by decide), if_neg (by decide), if_pos rfl]

theorem parseStringBody_plain (c : Char) (l : List Char)
    (h1 : ¬c = Char.ofNat 34) (h2 : ¬c = Char.ofNat 92) (h3 : ¬c.toNat < 32) :
    parseStringBody (c :: l) = pushChar c (parseStringBody l) := by
  rw [parseStringBody.eq_def]
  dsimp only
  rw [if_neg h1, if_neg h2, if_neg h3]

theorem parseStringBody_u (a b c2 d : Char) (l : List Char) (n : Nat)
    (hh : hex4 a b c2 d = some n) (hn : n < 0xD800) :
    parseStringBody (Char.ofNat 92 :: 'u' :: a :: b :: c2 :: d :: l)
      = pushChar (Char.ofNat n) (parseStringBody l) := by
  rw [parseStringBody.eq_def]
  dsimp only
  rw [if_neg (by decide), if_pos rfl]
  rw [if_neg (by decide), if_neg (by decide), if_neg (by decide), if_neg (by decide),
    if_neg (by decide), if_neg (by decide), if_neg (by decide), if_neg (by decide),
    if_pos rfl]
  have hpu : parseU (a :: b :: c2 :: d :: l) = some (Char.ofNat n, l) := by
    unfold parseU
    dsimp only
    rw [hh]
    dsimp only
    rw [if_pos (Or.inl hn)]
  rw [hpu]

theorem hexVal_hexDigit (n : Nat) (h : n < 16) : hexVal (hexDigit n) = some n := by
  interval_cases n <;> rfl

theorem hex4_digits (t : Nat) (h : t < 256) :
    hex4 '0' '0' (hexDigit (t / 16)) (hexDigit (t % 16)) = some t := by
  have h0 : hexVal '0' = some 0 := rfl
  have hdiv : t / 16 < 16 := by omega
  have hmod : t % 16 < 16 := by omega
  unfold hex4
  rw [h0, hexVal_hexDigit _ hdiv, hexVal_hexDigit _ hmod]
  dsimp only
  congr 1
  omega

theorem skipWs_cons (c : Char) (l : List Char)
    (h : ¬(c = ' ' ∨ c = Char.ofNat 9 ∨ c = Char.ofNat 10 ∨ c = Char.ofNat 13)) :
    skipWs (c :: l) = c :: l := by
  rw [skipWs.eq_def]
  dsimp only
  rw [if_neg h]

/-- Round trip of the Go string encoder against the JSON string-body
deserializer: decoding the encoded character sequence recovers it exactly
and leaves the input after the closing quote untouched. -/
theorem parseStringBody_encode (s rest : List Char) :
    parseStringBody (encodeStringBody s ++ Char.ofNat 34 :: rest) = some (s, rest) := by
  induction s with
  | nil =>
    rw [encodeStringBody, List.nil_append, parseStringBody_quote]
  | cons c cs ih =>
    rw [encodeStringBody, List.append_assoc]
    unfold encodeChar
    split_ifs with h1 h2 h3 h4 h5 h6 h7
    · subst h1
      rw [List.cons_append, List.cons_append, List.nil_append,
        parseStringBody_esc_quote, ih]
      rfl
    · subst h2
      rw [List.cons_append, List.cons_append, List.nil_append,
        parseStringBody_esc_backslash, ih]
      rfl
    · subst h3
      rw [List.cons_append, List.cons_append, List.nil_append,
        parseStringBody_esc_n, ih]
      rfl
    · subst h4
      rw [List.cons_append, List.cons_append, List.nil_append,
        parseStringBody_esc_r, ih]
      rfl
    · subst h5
      rw [List.cons_append, List.cons_append, List.nil_append,
        parseStringBody_esc_t, ih]
      rfl
    · have ht : c.toNat < 256 := by
        rcases h6 with h | h | h | h
        · omega
        · rw [h]; decide
        · rw [h]; decide
        · rw [h]; decide
      have hn : c.toNat < 0xD800 := by omega
      simp only [List.cons_append, List.nil_append]
      rw [parseStringBody_u _ _ _ _ _ _ (hex4_digits c.toNat ht) hn, ih,
        Char.ofNat_toNat]
      rfl
    · have hc : Char.ofNat c.toNat = c := Char.ofNat_toNat c
      rcases h7 with h | h
      · have h8 : hexDigit (c.toNat % 16) = '8' := by rw [h]; rfl
        have hh : hex4 '2' '0' '2' (hexDigit (c.toNat % 16)) = some c.toNat := by
          rw [h8, h]; rfl
        simp only [List.cons_append, List.nil_append]
        rw [parseStringBody_u _ _ _ _ _ _ hh (by omega), ih, hc]
        rfl
      · have h9 : hexDigit (c.toNat % 16) = '9' := by rw [h]; rfl
        have hh : hex4 '2' '0' '2' (hexDigit (c.toNat % 16)) = some c.toNat := by
          rw [h9, h]; rfl
        simp only [List.cons_append, List.nil_append]
        rw [parseStringBody_u _ _ _ _ _ _ hh (by omega), ih, hc]
        rfl
    · have h3' : ¬c.toNat < 32 := fun hlt => h6 (Or.inl hlt)
      rw [List.cons_append, List.nil_append, parseStringBody_plain c _ h1 h2 h3', ih]
      rfl

theorem toList_mk (l : List Char) : (String.mk l).toList = l := rfl

/-- Deserializing one final `"k":"v"` member followed by the closing
brace. -/
theorem parseMembers_last (fuel : Nat) (k v rem : List Char) :
    parseMembers (fuel + 1)
        (Char.ofNat 34 :: (encodeStringBody k ++ Char.ofNat 34 :: ':'
          :: Char.ofNat 34 :: (encodeStringBody v ++ Char.ofNat 34
          :: Char.ofNat 125 :: rem)))
      = some ([(k, v)], rem) := by
  unfold parseMembers
  rw [skipWs_cons _ _ (by decide)]
  dsimp only
  rw [if_pos rfl, parseStringBody_encode]
  dsimp only
  rw [skipWs_cons _ _ (by decide)]
  dsimp only
  rw [if_pos rfl]
  rw [skipWs_cons _ _ (by decide)]
  dsimp only
  rw [if_pos rfl, parseStringBody_encode]
  dsimp only
  rw [skipWs_cons _ _ (by decide)]
  dsimp only
  rw [if_neg (by decide), if_pos rfl]

/-- Deserializing a non-final `"k":"v"` member followed by a comma and
further members. -/
theorem parseMembers_more (fuel : Nat) (k v tail : List Char)
    (ms : List (List Char × List Char)) (rem : List Char)
    (hp : parseMembers fuel tail = some (ms, rem)) :
    parseMembers (fuel + 1)
        (Char.ofNat 34 :: (encodeStringBody k ++ Char.ofNat 34 :: ':'
          :: Char.ofNat 34 :: (encodeStringBody v ++ Char.ofNat 34
          :: ',' :: tail)))
      = some ((k, v) :: ms, rem) := by
  unfold parseMembers
  rw [skipWs_cons _ _ (by decide)]
  dsimp only
  rw [if_pos rfl, parseStringBody_encode]
  dsimp only
  rw [skipWs_cons _ _ (by decide)]
  dsimp only
  rw [if_pos rfl]
  rw [skipWs_cons _ _ (by decide)]
  dsimp only
  rw [if_pos rfl, parseStringBody_encode]
  dsimp only
  rw [skipWs_cons _ _ (by decide)]
  dsimp only
  rw [if_pos rfl, hp]

/-- Deserializing exactly three encoded members with any sufficient
fuel. -/
theorem parseMembers_three (fuel : Nat) (h : 3 ≤ fuel)
    (k1 v1 k2 v2 k3 v3 rem : List Char) :
    parseMembers fuel
        (Char.ofNat 34 :: (encodeStringBody k1 ++ Char.ofNat 34 :: ':'
          :: Char.ofNat 34 :: (encodeStringBody v1 ++ Char.ofNat 34 :: ','
          :: Char.ofNat 34 :: (encodeStringBody k2 ++ Char.ofNat 34 :: ':'
          :: Char.ofNat 34 :: (encodeStringBody v2 ++ Char.ofNat 34 :: ','
          :: Char.ofNat 34 :: (encodeStringBody k3 ++ Char.ofNat 34 :: ':'
          :: Char.ofNat 34 :: (encodeStringBody v3 ++ Char.ofNat 34
          :: Char.ofNat 125 :: rem)))))))
      = some ([(k1, v1), (k2, v2), (k3, v3)], rem) := by
  obtain ⟨a, rfl⟩ : ∃ a, fuel = a + 3 := ⟨fuel - 3, by omega⟩
  exact parseMembers_more (a + 2) k1 v1 _ _ _
    (parseMembers_more (a + 1) k2 v2 _ _ _
      (parseMembers_last a k3 v3 rem))

/-- C4 core: the byte-level request body built by `ProcessSignature`,
deserialized as a JSON object, yields exactly the three members `result`,
`branch`, `accessToken` in order, with `result` equal character-for-
character to the payload passed in. -/
theorem parseStringObject_marshal (p : ResultsPayload) :
    parseStringObject (marshalResultsPayload p)
      = some [("result".toList, p.result.toList),
          ("branch".toList, p.branch.toList),
          ("accessToken".toList, p.accessToken.toList)] := by
  unfold parseStringObject marshalResultsPayload
  rw [toList_mk]
  simp only [encodeString, List.cons_append, List.nil_append, List.append_assoc,
    List.singleton_append]
  rw [skipWs_cons _ _ (by decide)]
  dsimp only
  rw [if_pos rfl]
  rw [skipWs_cons _ _ (by decide)]
  dsimp only
  rw [if_neg (by decide)]
  rw [parseMembers_three _ (by simp only [List.length_cons, List.length_append]; omega)]
  rfl

/-- C5: for repository name `"octo/repo"` and configured base URL
`"https://api.example.com"`, the publish endpoint `ProcessSignature`
builds, parses and POSTs to is exactly
`"https://api.example.com/projects/github.com/octo/repo"`. -/
theorem processSignature_endpoint :
    (processSignature "{}" "octo/repo" "refs/heads/main" "token" sampleEnv marshalOk
          netUrlParse (fun _ _ => none) (fun _ => Except.ok respCreated)).sent.map
        (fun r => (r.method, r.url))
      = [("POST", "https://api.example.com/projects/github.com/octo/repo")] := by
  rfl

/-- Every request `ProcessSignature` actually sends carries as body the
marshalled three-field payload struct. -/
theorem processSignature_sent_shape (jsonPayload repoName repoRef accessToken : String)
    (env : Env)
    (urlParse : String → Except String URL)
    (newRequestErr : String → String → Option String)
    (doRequest : HTTPRequest → Except String HTTPResponse)
    (req : HTTPRequest)
    (hreq : req ∈ (processSignature jsonPayload repoName repoRef accessToken env
      marshalOk urlParse newRequestErr doRequest).sent) :
    req.body = marshalResultsPayload
      { result := jsonPayload, branch := repoRef, accessToken := accessToken } := by
  revert hreq
  unfold processSignature marshalOk
  dsimp only
  split
  · intro h
    exact absurd h (List.not_mem_nil req)
  · split
    · intro h
      exact absurd h (List.not_mem_nil req)
    · split
      · intro h
        rw [List.mem_singleton.mp h]
      · split
        · split
          · intro h
            rw [List.mem_singleton.mp h]
          · intro h
            rw [List.mem_singleton.mp h]
        · intro h
          rw [List.mem_singleton.mp h]

/-- C4: whatever the URL parser, request constructor and transport do,
the body of any request `ProcessSignature` hands to the HTTP client,
deserialized as a JSON object, contains exactly the three fields
`result`, `branch`, `accessToken` — no more, no fewer — and the `result`
field equals the JSON payload passed in byte for byte. -/
theorem processSignature_body_deserializes (jsonPayload repoName repoRef
      accessToken : String) (env : Env)
    (urlParse : String → Except String URL)
    (newRequestErr : String → String → Option String)
    (doRequest : HTTPRequest → Except String HTTPResponse)
    (req : HTTPRequest)
    (hreq : req ∈ (processSignature jsonPayload repoName repoRef accessToken env
      marshalOk urlParse newRequestErr doRequest).sent) :
    parseStringObject req.body
      = some [("result".toList, jsonPayload.toList),
          ("branch".toList, repoRef.toList),
          ("accessToken".toList, accessToken.toList)] := by
  rw [processSignature_sent_shape jsonPayload repoName repoRef accessToken env
    urlParse newRequestErr doRequest req hreq]
  exact parseStringObject_marshal _

/-- The request of the concrete C4 witness run. -/
def sampleSentRequest : HTTPRequest :=
  { method := "POST"
    url := "https://api.example.com/projects/github.com/octo/repo"
    body := marshalResultsPayload
      { result := "{}", branch := "refs/heads/main", accessToken := "tok" }
    contentType := "application/json", timeoutSeconds := 10 }

/-- Witness for C4 on a concrete run against a 201-returning transport. -/
theorem processSignature_body_deserializes_witness :
    parseStringObject sampleSentRequest.body
      = some [("result".toList, "{}".toList),
          ("branch".toList, "refs/heads/main".toList),
          ("accessToken".toList, "tok".toList)] :=
  processSignature_body_deserializes "{}" "octo/repo" "refs/heads/main" "tok"
    sampleEnv netUrlParse (fun _ _ => none) (fun _ => Except.ok respCreated)
    sampleSentRequest (List.mem_singleton.mpr rfl)

end ScorecardAction
